import Mathlib

/-! The script `sw.js`: a network pass-through service worker.

A shallow embedding of `src/sw.js` together with the part of the service-worker
host interface the script touches.  The script is three `addEventListener`
calls; each listener body is a straight-line sequence of host API calls.

* The host API calls are modelled as primitives of a state-and-exception monad
  `Host` over a `World` that records every call, in order, in `World.trace`.
* A promise is a handle (`Nat`); it settles later, outside the listener,
  according to what the network answers (`Network`).
* `script` is the top level of `sw.js`; `registry` is the listener table it
  leaves behind; `fire` is the host dispatching one event to that table.
-/

namespace SW

/-! ## Data carried by events -/

/-- The request descriptor of a fetch event (opaque to the script). -/
structure Request where
  method : String
  url : String
  headers : List (String × String)
  credentials : String
  body : Option String
deriving DecidableEq, Repr

/-- A network response. -/
structure Response where
  status : Nat
  headers : List (String × String)
  body : String
deriving DecidableEq, Repr

/-- A JavaScript error value (thrown, or the reason of a rejected promise). -/
structure JsError where
  name : String
  message : String
deriving DecidableEq, Repr

/-! Promise objects and event objects are created by the host; the model
identifies each by a natural number, its handle, given out in creation order. -/

/-- How a promise of type `α` eventually settles. -/
abbrev Settlement (α : Type) := Except JsError α

/-! ## Host interface -/

/-- One call of the host API, as observed from outside the worker.  The
alphabet covers the calls a service worker script can make; `sw.js` uses the
first five. -/
inductive Effect where
  | consoleLog (msg : String)
  | skipWaiting (returned : Nat)
  | clientsClaim (returned : Nat)
  | netFetch (returned : Nat) (request : Request)
  | respondWith (event : Nat) (arg : Nat)
  | waitUntil (event : Nat) (arg : Nat)
  | cacheWrite (cache : String) (request : Request)
  | storageAccess (key : String)
  | setTimeout (ms : Nat)
deriving DecidableEq, Repr

/-- The state of the host as far as the worker can affect it. -/
structure World where
  /-- Every host API call made so far, oldest first. -/
  trace : List Effect
  /-- Handle the next created promise gets. -/
  nextPromise : Nat
  /-- Identity the next dispatched event gets. -/
  nextEvent : Nat
  /-- The respond-with-entered flag of the event being dispatched. -/
  respondWithEntered : Bool
deriving DecidableEq, Repr

/-- The world in which the worker starts. -/
def World.init : World :=
  { trace := [], nextPromise := 0, nextEvent := 0, respondWithEntered := false }

/-- Code running inside the worker: it may throw, and it acts on the world. -/
abbrev Host := ExceptT JsError (StateM World)

/-- Record one host API call. -/
def emit (e : Effect) : Host Unit :=
  modify fun w => { w with trace := w.trace ++ [e] }

/-- The host creates a promise object and hands out its handle. -/
def newPromise : Host Nat :=
  modifyGet fun w => (w.nextPromise, { w with nextPromise := w.nextPromise + 1 })

/-- Host primitive `console.log(msg)`. -/
def consoleLog (msg : String) : Host Unit :=
  emit (.consoleLog msg)

/-- Host primitive `self.skipWaiting()`: returns a promise, never throws. -/
def skipWaiting : Host Nat := do
  let p ← newPromise
  emit (.skipWaiting p)
  pure p

/-- Host primitive `clients.claim()`: returns a promise, never throws. -/
def clientsClaim : Host Nat := do
  let p ← newPromise
  emit (.clientsClaim p)
  pure p

/-- Host primitive `fetch(request)`: starts a network fetch of `request` and
returns the promise of its response; never throws. -/
def fetch (request : Request) : Host Nat := do
  let p ← newPromise
  emit (.netFetch p request)
  pure p

/-- An event with a lifetime (`install`, `activate`, ...). -/
structure ExtendableEvent where
  id : Nat
deriving DecidableEq, Repr

/-- A fetch event: an extendable event carrying the intercepted request. -/
structure FetchEvent extends ExtendableEvent where
  request : Request
deriving DecidableEq, Repr

/-- Host primitive `event.respondWith(p)`: throws `InvalidStateError` when the
event was already answered, otherwise marks it answered by promise `p`. -/
def FetchEvent.respondWith (event : FetchEvent) (p : Nat) : Host Unit := do
  let w ← get
  if w.respondWithEntered then
    throw { name := "InvalidStateError", message := "respondWith() was already called" }
  else
    set { w with respondWithEntered := true }
    emit (.respondWith event.id p)

/-! ## Listener registration -/

/-- The class of event object the host hands to listeners of a given type. -/
def EventObj (type : String) : Type :=
  if type = "fetch" then FetchEvent else ExtendableEvent

/-- One `addEventListener(type, listener)` registration. -/
structure Registration where
  type : String
  listener : EventObj type → Host Unit

/-- The listener table of the worker global scope, in registration order. -/
abbrev Registry := List Registration

/-- Evaluation of the top level of a worker script. -/
abbrev Script := StateM Registry

/-- Host primitive `self.addEventListener(type, listener)`. -/
def addEventListener (type : String) (listener : EventObj type → Host Unit) : Script Unit :=
  modify fun reg => reg ++ [{ type := type, listener := listener }]

/-! ## The script `sw.js` -/

/-- The listener of lines 3-7:
`(event) => { console.log('Service Worker: Proses instalasi...'); self.skipWaiting(); }`. -/
def installListener (_event : ExtendableEvent) : Host Unit := do
  consoleLog "Service Worker: Proses instalasi..."
  let _ ← skipWaiting

/-- The listener of lines 9-13:
`(event) => { console.log('Service Worker: Aktif.'); clients.claim(); }`. -/
def activateListener (_event : ExtendableEvent) : Host Unit := do
  consoleLog "Service Worker: Aktif."
  let _ ← clientsClaim

/-- The listener of lines 17-19:
`(event) => { event.respondWith(fetch(event.request)); }`.
The argument `fetch(event.request)` is evaluated before the call. -/
def fetchListener (event : FetchEvent) : Host Unit := do
  let p ← fetch event.request
  event.respondWith p

/-- The top level of `sw.js`: three registrations. -/
def script : Script Unit := do
  addEventListener "install" installListener
  addEventListener "activate" activateListener
  addEventListener "fetch" fetchListener

/-- The listener table after `sw.js` has been evaluated. -/
def registry : Registry := (script.run []).2

/-! ## Dispatch by the host -/

/-- The host creates the object of the next event: a fresh identity, and the
respond-with-entered flag unset. -/
def newEvent : StateM World Nat :=
  modifyGet fun w =>
    (w.nextEvent, { w with nextEvent := w.nextEvent + 1, respondWithEntered := false })

/-- The host dispatches the event object `ev` of type `type`: the listeners
registered for `type` run to completion one after the other in registration
order; an exception a listener throws is reported and collected; a call of
`respondWith` stops the propagation to later listeners. -/
def dispatch (type : String) (ev : EventObj type) : Registry → StateM World (List JsError)
  | [] => pure []
  | r :: rest =>
    if h : r.type = type then do
      let res ← (r.listener (h ▸ ev)).run
      let errs := match res with
        | .ok _ => []
        | .error e => [e]
      if (← get).respondWithEntered then
        pure errs
      else do
        let more ← dispatch type ev rest
        pure (errs ++ more)
    else
      dispatch type ev rest

/-- What the host runtime fires at the worker. -/
inductive HostEvent where
  | install
  | activate
  | fetch (request : Request)
deriving DecidableEq, Repr

/-- The host fires one event at a worker whose listener table is `reg`; the
result lists the exceptions the listeners threw. -/
def fire (reg : Registry) : HostEvent → StateM World (List JsError)
  | .install => do
    let id ← newEvent
    dispatch "install" ({ id := id } : ExtendableEvent) reg
  | .activate => do
    let id ← newEvent
    dispatch "activate" ({ id := id } : ExtendableEvent) reg
  | .fetch request => do
    let id ← newEvent
    dispatch "fetch" ({ id := id, request := request } : FetchEvent) reg

/-- The worker of `sw.js` handles one event. -/
def handle (e : HostEvent) : StateM World (List JsError) :=
  fire registry e

/-- The worker of `sw.js` handles a sequence of events, each to completion. -/
def handleAll : List HostEvent → World → World
  | [], w => w
  | e :: es, w => handleAll es (handle e w).2

/-- The host API calls added to the trace between world `w` and the later
world `w2`. -/
def newEffects (w w2 : World) : List Effect :=
  w2.trace.drop w.trace.length

/-! ## Settlement of promises, after the listeners have returned -/

/-- What the network answers to the fetch that returned promise `p` for
request `r`: a response, or a failure. -/
abbrev Network := Nat → Request → Settlement Response

/-- The promises event `ev` was answered with, read off a trace. -/
def answeredWith (tr : List Effect) (ev : Nat) : List Nat :=
  tr.filterMap fun
    | .respondWith e p => if e = ev then some p else none
    | _ => none

/-- The requests of the network fetches that returned promise `p`. -/
def fetchedFor (tr : List Effect) (p : Nat) : List Request :=
  tr.filterMap fun
    | .netFetch q r => if q = p then some r else none
    | _ => none

/-- The requests sent to the network on behalf of event `ev`. -/
def requestsSent (tr : List Effect) (ev : Nat) : List Request :=
  (answeredWith tr ev).flatMap (fetchedFor tr)

/-- The settlements event `ev` is resolved with: the promise handed to
`respondWith` settles as the network answers its fetch. -/
def resolutions (net : Network) (tr : List Effect) (ev : Nat) :
    List (Settlement Response) :=
  (answeredWith tr ev).flatMap fun p => (fetchedFor tr p).map (net p)

/-- The effect is a network fetch. -/
def Effect.isNetFetch : Effect → Bool
  | .netFetch _ _ => true
  | _ => false

/-- The effect is a call of `respondWith` on event `ev`. -/
def Effect.isRespondWith (ev : Nat) : Effect → Bool
  | .respondWith e _ => e == ev
  | _ => false

/-- The effect hands promise `p` back to the host (`respondWith(p)` or
`waitUntil(p)`). -/
def Effect.usesPromise (p : Nat) : Effect → Bool
  | .respondWith _ q => q == p
  | .waitUntil _ q => q == p
  | _ => false

/-- The host API calls made while the worker handles `e` in world `w`. -/
def effectsOf (e : HostEvent) (w : World) : List Effect :=
  newEffects w (handle e w).2

/-- The host API calls made while the worker handles the events `es` one
after the other from world `w`: the per-event calls, concatenated. -/
def effectsOfAll : List HostEvent → World → List Effect
  | [], _ => []
  | e :: es, w => effectsOf e w ++ effectsOfAll es (handle e w).2

/-- The event objects an effect refers to. -/
def Effect.events : Effect → List Nat
  | .respondWith e _ => [e]
  | .waitUntil e _ => [e]
  | _ => []

/-- The promise objects an effect refers to. -/
def Effect.promises : Effect → List Nat
  | .skipWaiting p => [p]
  | .clientsClaim p => [p]
  | .netFetch p _ => [p]
  | .respondWith _ p => [p]
  | .waitUntil _ p => [p]
  | _ => []

/-- Every event and promise a trace refers to has identity at least `ev`,
respectively `p`, and below `ev + n`, respectively `p + n`. -/
def IdsWithin (ev : Nat) (p : Nat) (n : Nat) (tr : List Effect) : Prop :=
  ∀ x ∈ tr, (∀ i ∈ x.events, ev ≤ i ∧ i < ev + n) ∧ (∀ q ∈ x.promises, p ≤ q ∧ q < p + n)

/-- Run a listener body in world `w`: how it completes, and the world after. -/
def runListener (body : Host Unit) (w : World) : Except JsError Unit × World :=
  body.run w

/-- The arguments of the network fetches in a trace, oldest first. -/
def fetchArgs (tr : List Effect) : List Request :=
  tr.filterMap fun
    | .netFetch _ r => some r
    | _ => none

/-- The effect is a call of `self.skipWaiting()`. -/
def Effect.isSkipWaiting : Effect → Bool
  | .skipWaiting _ => true
  | _ => false

/-- The effect is a call of `clients.claim()`. -/
def Effect.isClientsClaim : Effect → Bool
  | .clientsClaim _ => true
  | _ => false

/-- The effect is a call of `console.log`. -/
def Effect.isConsoleLog : Effect → Bool
  | .consoleLog _ => true
  | _ => false

/-- The effect writes to a cache or touches storage. -/
def Effect.isStorage : Effect → Bool
  | .cacheWrite _ _ => true
  | .storageAccess _ => true
  | _ => false

/-- The effect arms a timer. -/
def Effect.isSetTimeout : Effect → Bool
  | .setTimeout _ => true
  | _ => false

/-- The effect calls a method of an event object (`respondWith`, `waitUntil`). -/
def Effect.usesEvent : Effect → Bool
  | .respondWith _ _ => true
  | .waitUntil _ _ => true
  | _ => false

/-- The host event is a fetch event. -/
def HostEvent.isFetch : HostEvent → Bool
  | .fetch _ => true
  | _ => false

/-! ## Sample data -/

/-- The request `GET /index.html`. -/
def indexRequest : Request :=
  { method := "GET", url := "/index.html", headers := [("accept", "text/html")],
    credentials := "include", body := none }

/-- The request `GET /api/data`. -/
def apiRequest : Request :=
  { method := "GET", url := "/api/data", headers := [], credentials := "same-origin",
    body := none }

/-- A `200` response with an HTML body. -/
def htmlResponse : Response :=
  { status := 200, headers := [("content-type", "text/html")], body := "<html>...</html>" }

/-- The rejection reason of a fetch made while offline. -/
def offlineError : JsError :=
  { name := "TypeError", message := "Failed to fetch" }

/-- A network that answers every fetch with `htmlResponse`. -/
def networkUp : Network := fun _ _ => .ok htmlResponse

/-- A network that fails every fetch with `offlineError`. -/
def networkDown : Network := fun _ _ => .error offlineError

/-- A network that is down for the first three fetches and up afterwards. -/
def networkFlaky : Network := fun p _ => if p < 3 then .error offlineError else .ok htmlResponse

/-! ## Evaluation of the script and of one dispatch -/

theorem registry_eq :
    registry =
      [{ type := "install", listener := installListener },
       { type := "activate", listener := activateListener },
       { type := "fetch", listener := fetchListener }] := rfl

theorem handle_install (w : World) :
    handle .install w =
      ([], { trace := w.trace ++
                [.consoleLog "Service Worker: Proses instalasi...", .skipWaiting w.nextPromise],
             nextPromise := w.nextPromise + 1,
             nextEvent := w.nextEvent + 1,
             respondWithEntered := false }) := by
  have h : handle .install w =
      ([], { trace := (w.trace ++ [.consoleLog "Service Worker: Proses instalasi..."]) ++
                [.skipWaiting w.nextPromise],
             nextPromise := w.nextPromise + 1,
             nextEvent := w.nextEvent + 1,
             respondWithEntered := false }) := rfl
  rw [h, List.append_assoc]
  rfl

theorem handle_activate (w : World) :
    handle .activate w =
      ([], { trace := w.trace ++
                [.consoleLog "Service Worker: Aktif.", .clientsClaim w.nextPromise],
             nextPromise := w.nextPromise + 1,
             nextEvent := w.nextEvent + 1,
             respondWithEntered := false }) := by
  have h : handle .activate w =
      ([], { trace := (w.trace ++ [.consoleLog "Service Worker: Aktif."]) ++
                [.clientsClaim w.nextPromise],
             nextPromise := w.nextPromise + 1,
             nextEvent := w.nextEvent + 1,
             respondWithEntered := false }) := rfl
  rw [h, List.append_assoc]
  rfl

theorem handle_fetch (R : Request) (w : World) :
    handle (.fetch R) w =
      ([], { trace := w.trace ++
                [.netFetch w.nextPromise R, .respondWith w.nextEvent w.nextPromise],
             nextPromise := w.nextPromise + 1,
             nextEvent := w.nextEvent + 1,
             respondWithEntered := true }) := by
  have h : handle (.fetch R) w =
      ([], { trace := (w.trace ++ [.netFetch w.nextPromise R]) ++
                [.respondWith w.nextEvent w.nextPromise],
             nextPromise := w.nextPromise + 1,
             nextEvent := w.nextEvent + 1,
             respondWithEntered := true }) := rfl
  rw [h, List.append_assoc]
  rfl

theorem newEffects_append (w w2 : World) (l : List Effect) (h : w2.trace = w.trace ++ l) :
    newEffects w w2 = l := by
  simp [newEffects, h]

theorem effectsOf_install (w : World) :
    effectsOf .install w =
      [.consoleLog "Service Worker: Proses instalasi...", .skipWaiting w.nextPromise] :=
  newEffects_append _ _ _ (by rw [handle_install])

theorem effectsOf_activate (w : World) :
    effectsOf .activate w =
      [.consoleLog "Service Worker: Aktif.", .clientsClaim w.nextPromise] :=
  newEffects_append _ _ _ (by rw [handle_activate])

theorem effectsOf_fetch (R : Request) (w : World) :
    effectsOf (.fetch R) w =
      [.netFetch w.nextPromise R, .respondWith w.nextEvent w.nextPromise] :=
  newEffects_append _ _ _ (by rw [handle_fetch])

theorem handle_trace (e : HostEvent) (w : World) :
    (handle e w).2.trace = w.trace ++ effectsOf e w := by
  cases e
  · rw [effectsOf_install, handle_install]
  · rw [effectsOf_activate, handle_activate]
  · rw [effectsOf_fetch, handle_fetch]

theorem handle_nextEvent (e : HostEvent) (w : World) :
    (handle e w).2.nextEvent = w.nextEvent + 1 := by
  cases e
  · rw [handle_install]
  · rw [handle_activate]
  · rw [handle_fetch]

theorem handle_nextPromise (e : HostEvent) (w : World) :
    (handle e w).2.nextPromise = w.nextPromise + 1 := by
  cases e
  · rw [handle_install]
  · rw [handle_activate]
  · rw [handle_fetch]

theorem handle_errors (e : HostEvent) (w : World) : (handle e w).1 = [] := by
  cases e
  · rw [handle_install]
  · rw [handle_activate]
  · rw [handle_fetch]

/-! ## Runs of several events -/

theorem handleAll_append (xs ys : List HostEvent) (w : World) :
    handleAll (xs ++ ys) w = handleAll ys (handleAll xs w) := by
  induction xs generalizing w with
  | nil => rfl
  | cons e es ih => exact ih _

theorem handleAll_nextEvent (es : List HostEvent) (w : World) :
    (handleAll es w).nextEvent = w.nextEvent + es.length := by
  induction es generalizing w with
  | nil => rfl
  | cons e es ih =>
    show (handleAll es (handle e w).2).nextEvent = _
    rw [ih, handle_nextEvent, List.length_cons]
    omega

theorem handleAll_nextPromise (es : List HostEvent) (w : World) :
    (handleAll es w).nextPromise = w.nextPromise + es.length := by
  induction es generalizing w with
  | nil => rfl
  | cons e es ih =>
    show (handleAll es (handle e w).2).nextPromise = _
    rw [ih, handle_nextPromise, List.length_cons]
    omega

theorem handleAll_trace (es : List HostEvent) (w : World) :
    (handleAll es w).trace = w.trace ++ effectsOfAll es w := by
  induction es generalizing w with
  | nil => simp [handleAll, effectsOfAll]
  | cons e es ih =>
    show (handleAll es (handle e w).2).trace = _
    rw [ih, handle_trace, effectsOfAll, List.append_assoc]

theorem effectsOfAll_append (xs ys : List HostEvent) (w : World) :
    effectsOfAll (xs ++ ys) w = effectsOfAll xs w ++ effectsOfAll ys (handleAll xs w) := by
  induction xs generalizing w with
  | nil => rfl
  | cons e es ih =>
    show effectsOf e w ++ effectsOfAll (es ++ ys) (handle e w).2 = _
    rw [ih, effectsOfAll, List.append_assoc]
    rfl

theorem idsWithin_effectsOf (e : HostEvent) (w : World) :
    IdsWithin w.nextEvent w.nextPromise 1 (effectsOf e w) := by
  intro x hx
  cases e
  · rw [effectsOf_install] at hx
    simp at hx
    rcases hx with rfl | rfl <;> simp [Effect.events, Effect.promises]
  · rw [effectsOf_activate] at hx
    simp at hx
    rcases hx with rfl | rfl <;> simp [Effect.events, Effect.promises]
  · rw [effectsOf_fetch] at hx
    simp at hx
    rcases hx with rfl | rfl <;> simp [Effect.events, Effect.promises]

theorem idsWithin_effectsOfAll (es : List HostEvent) (w : World) :
    IdsWithin w.nextEvent w.nextPromise es.length (effectsOfAll es w) := by
  induction es generalizing w with
  | nil => intro x hx; simp [effectsOfAll] at hx
  | cons e es ih =>
    intro x hx
    rw [effectsOfAll, List.mem_append] at hx
    rcases hx with hx | hx
    · have h := idsWithin_effectsOf e w x hx
      refine ⟨fun i hi => ?_, fun q hq => ?_⟩
      · have := h.1 i hi
        simp only [List.length_cons]; omega
      · have := h.2 q hq
        simp only [List.length_cons]; omega
    · have h := ih (handle e w).2 x hx
      rw [handle_nextEvent, handle_nextPromise] at h
      refine ⟨fun i hi => ?_, fun q hq => ?_⟩
      · have := h.1 i hi
        simp only [List.length_cons]; omega
      · have := h.2 q hq
        simp only [List.length_cons]; omega

/-! ## Reading a run's trace -/

theorem answeredWith_append (a b : List Effect) (ev : Nat) :
    answeredWith (a ++ b) ev = answeredWith a ev ++ answeredWith b ev := by
  simp [answeredWith, List.filterMap_append]

theorem fetchedFor_append (a b : List Effect) (p : Nat) :
    fetchedFor (a ++ b) p = fetchedFor a p ++ fetchedFor b p := by
  simp [fetchedFor, List.filterMap_append]

theorem answeredWith_eq_nil (tr : List Effect) (ev : Nat)
    (h : ∀ x ∈ tr, ev ∉ x.events) : answeredWith tr ev = [] := by
  induction tr with
  | nil => rfl
  | cons x xs ih =>
    have hx := h x (List.mem_cons_self _ _)
    have hxs := ih (fun y hy => h y (List.mem_cons_of_mem _ hy))
    unfold answeredWith at hxs ⊢
    rw [List.filterMap_cons_none, hxs]
    cases x <;> simp [Effect.events] at hx ⊢
    exact fun hev => hx hev.symm

theorem fetchedFor_eq_nil (tr : List Effect) (p : Nat)
    (h : ∀ x ∈ tr, p ∉ x.promises) : fetchedFor tr p = [] := by
  induction tr with
  | nil => rfl
  | cons x xs ih =>
    have hx := h x (List.mem_cons_self _ _)
    have hxs := ih (fun y hy => h y (List.mem_cons_of_mem _ hy))
    unfold fetchedFor at hxs ⊢
    rw [List.filterMap_cons_none, hxs]
    cases x <;> simp [Effect.promises] at hx ⊢
    exact fun hp => hx hp.symm

/-- In a run from the initial world, the trace of the events before a fetch
event, the two calls of the fetch event, and the trace of the events after. -/
theorem run_trace_split (pre post : List HostEvent) (R : Request) :
    (handleAll (pre ++ .fetch R :: post) World.init).trace =
      effectsOfAll pre World.init ++
        ([.netFetch (handleAll pre World.init).nextPromise R,
          .respondWith (handleAll pre World.init).nextEvent
            (handleAll pre World.init).nextPromise] ++
          effectsOfAll post (handle (.fetch R) (handleAll pre World.init)).2) := by
  rw [handleAll_trace, effectsOfAll_append]
  show [] ++ (_ ++ (effectsOf _ _ ++ _)) = _
  rw [effectsOf_fetch, List.nil_append]

/-- In a run from the initial world, a fetch event is answered with exactly
the promise of its own network fetch. -/
theorem run_answeredWith (pre post : List HostEvent) (R : Request) :
    answeredWith (handleAll (pre ++ .fetch R :: post) World.init).trace
        (handleAll pre World.init).nextEvent
      = [(handleAll pre World.init).nextPromise] := by
  rw [run_trace_split, answeredWith_append, answeredWith_append]
  have hpre : answeredWith (effectsOfAll pre World.init) (handleAll pre World.init).nextEvent
      = [] := by
    apply answeredWith_eq_nil
    intro x hx hmem
    have h := (idsWithin_effectsOfAll pre World.init x hx).1 _ hmem
    rw [handleAll_nextEvent] at h
    omega
  have hpost : answeredWith (effectsOfAll post (handle (.fetch R) (handleAll pre World.init)).2)
      (handleAll pre World.init).nextEvent = [] := by
    apply answeredWith_eq_nil
    intro x hx hmem
    have h := (idsWithin_effectsOfAll post _ x hx).1 _ hmem
    rw [handle_nextEvent] at h
    omega
  rw [hpre, hpost]
  simp [answeredWith]

/-- In a run from the initial world, the promise a fetch event is answered
with is the promise of exactly one network fetch: that of the event's request. -/
theorem run_fetchedFor (pre post : List HostEvent) (R : Request) :
    fetchedFor (handleAll (pre ++ .fetch R :: post) World.init).trace
        (handleAll pre World.init).nextPromise
      = [R] := by
  rw [run_trace_split, fetchedFor_append, fetchedFor_append]
  have hpre : fetchedFor (effectsOfAll pre World.init) (handleAll pre World.init).nextPromise
      = [] := by
    apply fetchedFor_eq_nil
    intro x hx hmem
    have h := (idsWithin_effectsOfAll pre World.init x hx).2 _ hmem
    rw [handleAll_nextPromise] at h
    omega
  have hpost : fetchedFor (effectsOfAll post (handle (.fetch R) (handleAll pre World.init)).2)
      (handleAll pre World.init).nextPromise = [] := by
    apply fetchedFor_eq_nil
    intro x hx hmem
    have h := (idsWithin_effectsOfAll post _ x hx).2 _ hmem
    rw [handle_nextPromise] at h
    omega
  rw [hpre, hpost]
  simp [fetchedFor]

theorem run_requestsSent (pre post : List HostEvent) (R : Request) :
    requestsSent (handleAll (pre ++ .fetch R :: post) World.init).trace
        (handleAll pre World.init).nextEvent
      = [R] := by
  rw [requestsSent, run_answeredWith]
  simp [run_fetchedFor]

theorem run_resolutions (net : Network) (pre post : List HostEvent) (R : Request) :
    resolutions net (handleAll (pre ++ .fetch R :: post) World.init).trace
        (handleAll pre World.init).nextEvent
      = [net (handleAll pre World.init).nextPromise R] := by
  rw [resolutions, run_answeredWith]
  simp [run_fetchedFor]

theorem countP_isNetFetch_effectsOfAll (es : List HostEvent) (w : World) :
    (effectsOfAll es w).countP Effect.isNetFetch = es.countP HostEvent.isFetch := by
  induction es generalizing w with
  | nil => rfl
  | cons e es ih =>
    rw [effectsOfAll, List.countP_append, ih]
    cases e
    · rw [effectsOf_install]
      simp [List.countP_cons, Effect.isNetFetch, HostEvent.isFetch]
    · rw [effectsOf_activate]
      simp [List.countP_cons, Effect.isNetFetch, HostEvent.isFetch]
    · rw [effectsOf_fetch]
      simp [List.countP_cons, Effect.isNetFetch, HostEvent.isFetch]
      omega

theorem countP_isSetTimeout_effectsOfAll (es : List HostEvent) (w : World) :
    (effectsOfAll es w).countP Effect.isSetTimeout = 0 := by
  induction es generalizing w with
  | nil => rfl
  | cons e es ih =>
    rw [effectsOfAll, List.countP_append, ih]
    cases e
    · rw [effectsOf_install]; rfl
    · rw [effectsOf_activate]; rfl
    · rw [effectsOf_fetch]; rfl

/-! ## The listeners, run on their own -/

theorem installListener_run (event : ExtendableEvent) (w : World) :
    runListener (installListener event) w =
      (.ok (), { w with
        trace := w.trace ++
          [.consoleLog "Service Worker: Proses instalasi...", .skipWaiting w.nextPromise],
        nextPromise := w.nextPromise + 1 }) := by
  have h : runListener (installListener event) w =
      (.ok (), { w with
        trace := (w.trace ++ [.consoleLog "Service Worker: Proses instalasi..."]) ++
          [.skipWaiting w.nextPromise],
        nextPromise := w.nextPromise + 1 }) := rfl
  rw [h, List.append_assoc]
  rfl

theorem activateListener_run (event : ExtendableEvent) (w : World) :
    runListener (activateListener event) w =
      (.ok (), { w with
        trace := w.trace ++
          [.consoleLog "Service Worker: Aktif.", .clientsClaim w.nextPromise],
        nextPromise := w.nextPromise + 1 }) := by
  have h : runListener (activateListener event) w =
      (.ok (), { w with
        trace := (w.trace ++ [.consoleLog "Service Worker: Aktif."]) ++
          [.clientsClaim w.nextPromise],
        nextPromise := w.nextPromise + 1 }) := rfl
  rw [h, List.append_assoc]
  rfl

theorem fetchListener_trace (event : FetchEvent) (w : World) :
    (runListener (fetchListener event) w).2.trace =
      w.trace ++ (.netFetch w.nextPromise event.request ::
        if w.respondWithEntered then [] else [.respondWith event.id w.nextPromise]) := by
  rcases w with ⟨tr, np, ne, flag⟩
  cases flag
  · show (tr ++ [.netFetch np event.request]) ++ [.respondWith event.id np] = _
    simp
  · show tr ++ [.netFetch np event.request] = _
    simp

/-! ## The claims -/

/-- C1: for every fetch event carrying request `R`, in every world, the
network fetches issued while the event is handled are exactly one, and its
argument is `R` itself (same method, URL, headers, credentials mode and body);
the listener passes `event.request` to `fetch` whatever the event object. -/
theorem fetch_request_passed_verbatim (R : Request) (event : FetchEvent) (w : World) :
    fetchArgs (effectsOf (.fetch R) w) = [R] ∧
    (effectsOf (.fetch R) w).filter Effect.isNetFetch = [.netFetch w.nextPromise R] ∧
    fetchArgs (newEffects w (runListener (fetchListener event) w).2) = [event.request] := by
  refine ⟨?_, ?_, ?_⟩
  · rw [effectsOf_fetch]; rfl
  · rw [effectsOf_fetch]; rfl
  · rw [newEffects_append _ _ _ (fetchListener_trace event w)]
    cases w.respondWithEntered <;> rfl

/-- C2: in every run of the worker, when the network answers the fetch made
for a fetch event with a response `N`, the event is resolved exactly once and
with `N` itself: same status, headers and body. -/
theorem response_delivered_unmodified (pre post : List HostEvent) (R : Request)
    (net : Network) (N : Response)
    (h : net (handleAll pre World.init).nextPromise R = .ok N) :
    resolutions net (handleAll (pre ++ .fetch R :: post) World.init).trace
        (handleAll pre World.init).nextEvent
      = [.ok N] := by
  rw [run_resolutions, h]

/-- Witness of C2: `GET /index.html`, after install and activate, answered by
the network with a `200` HTML response. -/
theorem response_delivered_unmodified_witness :
    networkUp (handleAll [.install, .activate] World.init).nextPromise indexRequest
        = .ok htmlResponse ∧
    resolutions networkUp
        (handleAll ([.install, .activate] ++ .fetch indexRequest :: []) World.init).trace
        (handleAll [.install, .activate] World.init).nextEvent
      = [.ok htmlResponse] :=
  ⟨rfl, response_delivered_unmodified [.install, .activate] [] indexRequest networkUp
    htmlResponse rfl⟩

/-- C3: in every run of the worker, when the network fetch made for a fetch
event fails with error `e`, the event is resolved exactly once, and with the
failure `e` itself: no response of any kind is substituted. -/
theorem failure_propagates_unmodified (pre post : List HostEvent) (R : Request)
    (net : Network) (e : JsError)
    (h : net (handleAll pre World.init).nextPromise R = .error e) :
    resolutions net (handleAll (pre ++ .fetch R :: post) World.init).trace
        (handleAll pre World.init).nextEvent
      = [.error e] ∧
    ∀ N : Response, Except.ok N ∉
      resolutions net (handleAll (pre ++ .fetch R :: post) World.init).trace
        (handleAll pre World.init).nextEvent := by
  rw [run_resolutions, h]
  simp

/-- Witness of C3: `GET /api/data` while offline. -/
theorem failure_propagates_unmodified_witness :
    networkDown (handleAll [.install, .activate] World.init).nextPromise apiRequest
        = .error offlineError ∧
    (resolutions networkDown
        (handleAll ([.install, .activate] ++ .fetch apiRequest :: [.fetch indexRequest])
          World.init).trace
        (handleAll [.install, .activate] World.init).nextEvent
      = [.error offlineError] ∧
     ∀ N : Response, Except.ok N ∉
      resolutions networkDown
        (handleAll ([.install, .activate] ++ .fetch apiRequest :: [.fetch indexRequest])
          World.init).trace
        (handleAll [.install, .activate] World.init).nextEvent) :=
  ⟨rfl, failure_propagates_unmodified [.install, .activate] [.fetch indexRequest] apiRequest
    networkDown offlineError rfl⟩

/-- C4: for every install event, in every world, handling the event calls
`self.skipWaiting()` exactly once; the listener does so whatever the event
object and the world. -/
theorem install_calls_skipWaiting_once (event : ExtendableEvent) (w : World) :
    (effectsOf .install w).countP Effect.isSkipWaiting = 1 ∧
    (newEffects w (runListener (installListener event) w).2).countP Effect.isSkipWaiting = 1 := by
  refine ⟨?_, ?_⟩
  · rw [effectsOf_install]; rfl
  · rw [newEffects_append _ _ _ (congrArg (fun r => r.2.trace) (installListener_run event w))]
    rfl

/-- C5: for every activate event, in every world, handling the event calls
`clients.claim()` exactly once; the listener does so whatever the event object
and the world. -/
theorem activate_calls_claim_once (event : ExtendableEvent) (w : World) :
    (effectsOf .activate w).countP Effect.isClientsClaim = 1 ∧
    (newEffects w (runListener (activateListener event) w).2).countP Effect.isClientsClaim
      = 1 := by
  refine ⟨?_, ?_⟩
  · rw [effectsOf_activate]; rfl
  · rw [newEffects_append _ _ _ (congrArg (fun r => r.2.trace) (activateListener_run event w))]
    rfl

/-- C6: for every fetch event, in every world, the complete sequence of host
calls made while the event is handled is one network fetch of the event's
request followed by one `respondWith` on that event with the promise of that
fetch; no listener throws; the event ends up answered, and answered once;
nothing is logged, cached or stored. -/
theorem fetch_effect_trace (R : Request) (w : World) :
    effectsOf (.fetch R) w =
      [.netFetch w.nextPromise R, .respondWith w.nextEvent w.nextPromise] ∧
    (handle (.fetch R) w).1 = [] ∧
    (handle (.fetch R) w).2.respondWithEntered = true ∧
    (effectsOf (.fetch R) w).countP (Effect.isRespondWith w.nextEvent) = 1 ∧
    (effectsOf (.fetch R) w).countP Effect.isNetFetch = 1 ∧
    ∀ x ∈ effectsOf (.fetch R) w,
      x.isConsoleLog = false ∧ x.isStorage = false ∧ x.isSetTimeout = false := by
  rw [effectsOf_fetch, handle_fetch]
  refine ⟨rfl, rfl, rfl, ?_, rfl, ?_⟩
  · simp [List.countP_cons, Effect.isRespondWith]
  · intro x hx
    simp at hx
    rcases hx with rfl | rfl <;> exact ⟨rfl, rfl, rfl⟩

/-- C7: evaluating `sw.js` leaves exactly three registrations, for `install`,
`activate` and `fetch` in that order: one listener for each of these types and
none for any other type; the fetch listener is the only listener for `fetch`,
and the host runs it, unfiltered, for every fetch event whatever its request. -/
theorem script_registers_three_listeners :
    registry.map (fun r => r.type) = ["install", "activate", "fetch"] ∧
    registry =
      [{ type := "install", listener := installListener },
       { type := "activate", listener := activateListener },
       { type := "fetch", listener := fetchListener }] ∧
    (∀ t : String, (registry.filter fun r => decide (r.type = t)).length =
      if t ∈ ["install", "activate", "fetch"] then 1 else 0) ∧
    (registry.filter fun r => decide (r.type = "fetch")) =
      [{ type := "fetch", listener := fetchListener }] ∧
    ∀ (R : Request) (w : World),
      handle (.fetch R) w =
        ([], (runListener (fetchListener { id := w.nextEvent, request := R }) (newEvent w).2).2) := by
  refine ⟨rfl, rfl, ?_, rfl, fun R w => ?_⟩
  · intro t
    rw [registry_eq]
    by_cases h1 : t = "install"
    · subst h1; rfl
    · by_cases h2 : t = "activate"
      · subst h2; rfl
      · by_cases h3 : t = "fetch"
        · subst h3; rfl
        · have e1 : ¬ "install" = t := fun h => h1 h.symm
          have e2 : ¬ "activate" = t := fun h => h2 h.symm
          have e3 : ¬ "fetch" = t := fun h => h3 h.symm
          simp [List.filter, h1, h2, h3, e1, e2, e3]
  · rfl

/-- C8: for every fetch event, in every world and whatever the network
answers, handling the event issues exactly one network fetch, arms no timer,
and the event gets exactly one resolution; over a whole run the number of
network fetches equals the number of fetch events, so none is ever repeated. -/
theorem one_network_fetch_per_event (net : Network) (R : Request) (w : World)
    (es : List HostEvent) :
    (effectsOf (.fetch R) w).countP Effect.isNetFetch = 1 ∧
    (effectsOf (.fetch R) w).countP Effect.isSetTimeout = 0 ∧
    resolutions net (effectsOf (.fetch R) w) w.nextEvent = [net w.nextPromise R] ∧
    (handleAll es World.init).trace.countP Effect.isNetFetch = es.countP HostEvent.isFetch ∧
    (handleAll es World.init).trace.countP Effect.isSetTimeout = 0 := by
  refine ⟨?_, ?_, ?_, ?_, ?_⟩
  · rw [effectsOf_fetch]; rfl
  · rw [effectsOf_fetch]; rfl
  · rw [effectsOf_fetch]
    simp [resolutions, answeredWith, fetchedFor]
  · rw [handleAll_trace]
    exact countP_isNetFetch_effectsOfAll es World.init
  · rw [handleAll_trace]
    exact countP_isSetTimeout_effectsOfAll es World.init

/-- C9: take two runs of the worker that both handle a fetch event with
request `R`, after any events `pre1`, `pre2` and before any events `post1`,
`post2`, and in which the network gives the same outcome for that event's
fetch.  Then the requests sent for the event are the same in both runs, and so
are its resolutions.  Moreover the trace of a run is the concatenation of the
per-event calls, and the calls made for one event depend on the world only
through the two handle counters of the host. -/
theorem fetch_independent_of_other_events (pre1 post1 pre2 post2 : List HostEvent)
    (R : Request) (net1 net2 : Network)
    (h : net1 (handleAll pre1 World.init).nextPromise R =
      net2 (handleAll pre2 World.init).nextPromise R) :
    requestsSent (handleAll (pre1 ++ .fetch R :: post1) World.init).trace
        (handleAll pre1 World.init).nextEvent
      = requestsSent (handleAll (pre2 ++ .fetch R :: post2) World.init).trace
        (handleAll pre2 World.init).nextEvent ∧
    resolutions net1 (handleAll (pre1 ++ .fetch R :: post1) World.init).trace
        (handleAll pre1 World.init).nextEvent
      = resolutions net2 (handleAll (pre2 ++ .fetch R :: post2) World.init).trace
        (handleAll pre2 World.init).nextEvent ∧
    (∀ (es : List HostEvent) (w : World),
      (handleAll es w).trace = w.trace ++ effectsOfAll es w) ∧
    (∀ (xs ys : List HostEvent) (w : World),
      effectsOfAll (xs ++ ys) w = effectsOfAll xs w ++ effectsOfAll ys (handleAll xs w)) ∧
    (∀ (e : HostEvent) (w : World),
      effectsOf e w =
        effectsOf e { World.init with nextEvent := w.nextEvent, nextPromise := w.nextPromise }) := by
  refine ⟨?_, ?_, handleAll_trace, effectsOfAll_append, fun e w => ?_⟩
  · rw [run_requestsSent, run_requestsSent]
  · rw [run_resolutions, run_resolutions, h]
  · cases e
    · rw [effectsOf_install, effectsOf_install]
    · rw [effectsOf_activate, effectsOf_activate]
    · rw [effectsOf_fetch, effectsOf_fetch]

/-- Witness of C9: `GET /index.html` handled first thing under a working
network, and handled as fourth event under a network that has recovered. -/
theorem fetch_independent_of_other_events_witness :
    networkUp (handleAll [] World.init).nextPromise indexRequest =
      networkFlaky (handleAll [.install, .fetch apiRequest, .activate] World.init).nextPromise
        indexRequest ∧
    requestsSent (handleAll ([] ++ .fetch indexRequest :: []) World.init).trace
        (handleAll [] World.init).nextEvent
      = requestsSent
        (handleAll ([.install, .fetch apiRequest, .activate] ++
          .fetch indexRequest :: [.fetch apiRequest]) World.init).trace
        (handleAll [.install, .fetch apiRequest, .activate] World.init).nextEvent ∧
    resolutions networkUp (handleAll ([] ++ .fetch indexRequest :: []) World.init).trace
        (handleAll [] World.init).nextEvent
      = resolutions networkFlaky
        (handleAll ([.install, .fetch apiRequest, .activate] ++
          .fetch indexRequest :: [.fetch apiRequest]) World.init).trace
        (handleAll [.install, .fetch apiRequest, .activate] World.init).nextEvent :=
  ⟨rfl,
   (fetch_independent_of_other_events [] [] [.install, .fetch apiRequest, .activate]
      [.fetch apiRequest] indexRequest networkUp networkFlaky rfl).1,
   (fetch_independent_of_other_events [] [] [.install, .fetch apiRequest, .activate]
      [.fetch apiRequest] indexRequest networkUp networkFlaky rfl).2.1⟩

/-- C10: the install and activate listeners ignore their event argument and
drop the promise the control primitive returns: in every world, for every
event object, each completes normally after exactly one `console.log` line
followed by the one control-primitive call; none of these calls is a method of
the event (`waitUntil`, `respondWith`), hands the returned promise back to the
host, or is a network fetch. -/
theorem lifecycle_listeners_fixed_effects (event other : ExtendableEvent) (w : World) :
    runListener (installListener event) w =
      (.ok (), { w with
        trace := w.trace ++
          [.consoleLog "Service Worker: Proses instalasi...", .skipWaiting w.nextPromise],
        nextPromise := w.nextPromise + 1 }) ∧
    runListener (activateListener event) w =
      (.ok (), { w with
        trace := w.trace ++
          [.consoleLog "Service Worker: Aktif.", .clientsClaim w.nextPromise],
        nextPromise := w.nextPromise + 1 }) ∧
    installListener event = installListener other ∧
    activateListener event = activateListener other ∧
    (∀ x ∈ newEffects w (runListener (installListener event) w).2,
      x.usesEvent = false ∧ x.usesPromise w.nextPromise = false ∧ x.isNetFetch = false) ∧
    (∀ x ∈ newEffects w (runListener (activateListener event) w).2,
      x.usesEvent = false ∧ x.usesPromise w.nextPromise = false ∧ x.isNetFetch = false) ∧
    (handle .install w).1 = [] ∧
    (handle .activate w).1 = [] ∧
    effectsOf .install w =
      [.consoleLog "Service Worker: Proses instalasi...", .skipWaiting w.nextPromise] ∧
    effectsOf .activate w =
      [.consoleLog "Service Worker: Aktif.", .clientsClaim w.nextPromise] := by
  refine ⟨installListener_run event w, activateListener_run event w, rfl, rfl, ?_, ?_,
    handle_errors _ w, handle_errors _ w, effectsOf_install w, effectsOf_activate w⟩
  · intro x hx
    rw [newEffects_append _ _ _
      (congrArg (fun r => r.2.trace) (installListener_run event w))] at hx
    simp at hx
    rcases hx with rfl | rfl <;> exact ⟨rfl, rfl, rfl⟩
  · intro x hx
    rw [newEffects_append _ _ _
      (congrArg (fun r => r.2.trace) (activateListener_run event w))] at hx
    simp at hx
    rcases hx with rfl | rfl <;> exact ⟨rfl, rfl, rfl⟩

end SW

